import Mathlib

/-!
Verification of the Skorch/PyTorch grid-search notebook
("Wrapping Skorch around PyTorch for GridSearchCV with pre-trained
(pre-defined) weights initialization").

The repository's own code is the `RegularizedNet` subclass of
`NeuralNetClassifier`: a constructor with `lambda1 = 0.01`,
`reinit_from_pretrain = False`, `pretrained_nn = None` keyword
defaults; a `get_loss` override that adds an L1 penalty
`lambda1 * sum(w.abs().sum() for w in module_.parameters())`
to the base criterion value; and an `initialize_module` override
that, when `reinit_from_pretrain` holds, loads the module parameters
from the serialized snapshot at `pretrained_nn`.

The surrounding machinery (skorch training loop, its EarlyStopping
callback, sklearn GridSearchCV, torch state-dict loading) is library
code that is not part of this repository; where a property depends on
it, the corresponding definition is modelled from the specification
and its doc comment says so.

Numeric values are embedded as rationals (exact arithmetic); tensors
are flat lists of values paired with a shape.
-/

namespace SkorchGS

/-- A tensor: a shape signature together with the flattened list of its
entries. The layer algebra is out of scope; only shapes and entry values
are needed here. -/
structure Tensor where
  shape : List Nat
  values : List ℚ
deriving Repr, DecidableEq

/-- `w.abs().sum()` for one parameter tensor: the sum of the absolute
values of all its entries. -/
def Tensor.absSum (t : Tensor) : ℚ :=
  (t.values.map (fun v => |v|)).sum

/-- A state dict: an ordered association of parameter identifiers to
tensors, as produced by `module.parameters()` / `state_dict()`. -/
abbrev StateDict : Type := List (String × Tensor)

/-- The constructor default for `lambda1` in `RegularizedNet.__init__`
(`lambda1=0.01`), as an exact rational. -/
def defaultLambda1 : ℚ := 1 / 100

/-- The L1 penalty term computed by `RegularizedNet.get_loss`:
`self.lambda1 * sum([w.abs().sum() for w in self.module_.parameters()])`. -/
def penaltyTerm (lambda1 : ℚ) (params : List Tensor) : ℚ :=
  lambda1 * (params.map Tensor.absSum).sum

/-- Embeds `RegularizedNet.get_loss`. The base criterion
(`super().get_loss`, a CrossEntropyLoss passed at construction) is an
external collaborator, taken here as an abstract function of the
predictions and targets. The source computes the base loss and then
unconditionally executes `loss += self.lambda1 * sum([...])`. -/
def get_loss {P T : Type} (criterion : P → T → ℚ) (lambda1 : ℚ)
    (y_pred : P) (y_true : T) (params : List Tensor) : ℚ :=
  criterion y_pred y_true + penaltyTerm lambda1 params

/-- The list of terms that `RegularizedNet.get_loss` adds on top of the
base criterion value. The source's `loss += self.lambda1 * sum([...])`
runs on every call, with no branch on `lambda1`, so exactly one term is
always added. -/
def get_lossAddedTerms (lambda1 : ℚ) (params : List Tensor) : List ℚ :=
  [penaltyTerm lambda1 params]

/-- Flattened view of a parameter collection: all entry values of all
tensors in order. -/
def flatParams (params : List Tensor) : List ℚ :=
  (params.map Tensor.values).flatten

theorem penaltyTerm_eq_flat (lambda1 : ℚ) (params : List Tensor) :
    penaltyTerm lambda1 params
      = lambda1 * ((flatParams params).map (fun v => |v|)).sum := by
  unfold penaltyTerm flatParams Tensor.absSum
  congr 1
  induction params with
  | nil => simp
  | cons t ts ih => simp [ih]

theorem penaltyTerm_nonneg (lambda1 : ℚ) (params : List Tensor)
    (h : 0 ≤ lambda1) : 0 ≤ penaltyTerm lambda1 params := by
  rw [penaltyTerm_eq_flat]
  apply mul_nonneg h
  apply List.sum_nonneg
  intro x hx
  rcases List.mem_map.mp hx with ⟨v, _, rfl⟩
  exact abs_nonneg v

theorem penaltyTerm_pos (lambda1 : ℚ) (params : List Tensor)
    (hl : 0 < lambda1) (t : Tensor) (ht : t ∈ params)
    (v : ℚ) (hv : v ∈ t.values) (hv0 : v ≠ 0) :
    0 < penaltyTerm lambda1 params := by
  rw [penaltyTerm_eq_flat]
  apply mul_pos hl
  have hmem : |v| ∈ (flatParams params).map (fun v => |v|) := by
    apply List.mem_map_of_mem
    unfold flatParams
    exact List.mem_flatten.mpr ⟨t.values, List.mem_map_of_mem Tensor.values ht, hv⟩
  have hle : |v| ≤ ((flatParams params).map (fun v => |v|)).sum := by
    apply List.single_le_sum _ _ hmem
    intro x hx
    rcases List.mem_map.mp hx with ⟨w, _, rfl⟩
    exact abs_nonneg w
  have : (0 : ℚ) < |v| := abs_pos.mpr hv0
  linarith

/-- C3: `RegularizedNet.get_loss` returns the base supervised loss plus
`lambda1` times the sum of the absolute values of all current module
parameter entries; as a Lean function of the criterion, coefficient,
predictions, targets and parameter snapshot it is pure. -/
theorem C3_get_loss_formula {P T : Type} (criterion : P → T → ℚ) (lambda1 : ℚ)
    (y_pred : P) (y_true : T) (params : List Tensor) :
    get_loss criterion lambda1 y_pred y_true params
      = criterion y_pred y_true
        + lambda1 * ((flatParams params).map (fun v => |v|)).sum := by
  unfold get_loss
  rw [penaltyTerm_eq_flat]

/-- C2 counterexample: with `l1_coefficient = 0` the source still
executes `loss += self.lambda1 * sum([...])`, so one (zero-valued)
penalty term is added on top of the base loss — the added-terms list at
a concrete parameter collection is `[0]`, not the empty list the claim
("no added term at all rather than an added zero term") requires. -/
theorem C2_counterexample :
    get_lossAddedTerms 0 [⟨[2], [1, -2]⟩] = [0] ∧
      get_lossAddedTerms 0 [⟨[2], [1, -2]⟩] ≠ [] := by
  constructor
  · unfold get_lossAddedTerms penaltyTerm Tensor.absSum
    norm_num
  · unfold get_lossAddedTerms
    simp

/-- C2 (amended): with `l1_coefficient = 0` the value returned by
`get_loss` equals the base supervised loss exactly (in the exact
rational arithmetic of this embedding), for every criterion,
predictions/targets pair and parameter collection; however the source
reaches this value by adding a single zero-valued penalty term, not by
skipping the addition. -/
theorem C2_zero_lambda1_loss_eq_base {P T : Type} (criterion : P → T → ℚ)
    (y_pred : P) (y_true : T) (params : List Tensor) :
    get_loss criterion 0 y_pred y_true params = criterion y_pred y_true ∧
      get_lossAddedTerms 0 params = [0] := by
  constructor
  · unfold get_loss penaltyTerm
    simp
  · unfold get_lossAddedTerms penaltyTerm
    simp

/-- C10 counterexample: with the constructor default coefficient
(`lambda1 = 0.01`) and an all-zero parameter collection, the loss value
carries no nonzero penalty term: it equals the base loss exactly,
contradicting the claim that every loss value includes a nonzero L1
penalty term. -/
theorem C10_counterexample :
    penaltyTerm defaultLambda1 [⟨[2], [0, 0]⟩] = 0 ∧
      get_loss (fun (_ : Unit) (_ : Unit) => (5 : ℚ)) defaultLambda1 () ()
        [⟨[2], [0, 0]⟩] = 5 := by
  constructor
  · unfold penaltyTerm defaultLambda1 Tensor.absSum
    norm_num
  · unfold get_loss penaltyTerm defaultLambda1 Tensor.absSum
    norm_num

/-- C10 (amended): an estimator constructed without an explicit
`lambda1` gets the default `0.01`, so every loss value includes the
penalty term `0.01 * sum(abs(p))`; this term — and hence the excess of
the loss over the base loss — is strictly positive whenever at least
one module parameter entry is nonzero (with all-zero parameters it
vanishes). -/
theorem C10_default_lambda1 {P T : Type} (criterion : P → T → ℚ)
    (y_pred : P) (y_true : T) (params : List Tensor)
    (t : Tensor) (ht : t ∈ params) (v : ℚ) (hv : v ∈ t.values) (hv0 : v ≠ 0) :
    defaultLambda1 = 1 / 100 ∧
    get_loss criterion defaultLambda1 y_pred y_true params
      = criterion y_pred y_true + penaltyTerm defaultLambda1 params ∧
    criterion y_pred y_true
      < get_loss criterion defaultLambda1 y_pred y_true params := by
  refine ⟨rfl, rfl, ?_⟩
  have hpos : 0 < penaltyTerm defaultLambda1 params := by
    apply penaltyTerm_pos defaultLambda1 params _ t ht v hv hv0
    norm_num [defaultLambda1]
  unfold get_loss
  linarith

/-- Witness for C10_default_lambda1 at a concrete one-tensor parameter
collection with a nonzero entry. -/
theorem C10_default_lambda1_witness :
    defaultLambda1 = 1 / 100 ∧
    get_loss (fun (_ : Unit) (_ : Unit) => (5 : ℚ)) defaultLambda1 () ()
        [⟨[1], [3]⟩]
      = (fun (_ : Unit) (_ : Unit) => (5 : ℚ)) () ()
        + penaltyTerm defaultLambda1 [⟨[1], [3]⟩] ∧
    (fun (_ : Unit) (_ : Unit) => (5 : ℚ)) () ()
      < get_loss (fun (_ : Unit) (_ : Unit) => (5 : ℚ)) defaultLambda1 () ()
          [⟨[1], [3]⟩] :=
  C10_default_lambda1 (fun _ _ => (5 : ℚ)) () () [⟨[1], [3]⟩] ⟨[1], [3]⟩
    (by simp) 3 (by simp) (by norm_num)

/-- Errors of the Weight Initialization Policy. `shapeMismatch` names
the offending parameter identifier, the module's shape and the
snapshot's shape; `missingKey` is for an identifier absent from the
snapshot; `loadFailure` is for loading a snapshot from a missing
handle. -/
inductive InitError where
  | shapeMismatch (ident : String) (moduleShape snapshotShape : List Nat)
  | missingKey (ident : String)
  | loadFailure
deriving Repr, DecidableEq

/-- Modelled from the spec: the shape-verification pass of the Weight
Initialization Policy (§4.1). The repository's `initialize_module`
delegates snapshot application to `torch.load` / `load_state_dict`,
whose bodies are not part of this repository; per the spec, every
parameter identifier present in the module must exist in the snapshot
with an exactly matching shape, and a mismatch fails with
`ShapeMismatch` naming the identifier and the two shapes. Returns the
first error in module order, if any. -/
def checkShapes (m snap : StateDict) : Option InitError :=
  match m with
  | [] => none
  | (n, t) :: rest =>
    match snap.lookup n with
    | none => some (.missingKey n)
    | some s =>
      if t.shape = s.shape then checkShapes rest snap
      else some (.shapeMismatch n t.shape s.shape)

/-- Modelled from the spec: FROM_SNAPSHOT application of the Weight
Initialization Policy (§4.1). All shapes are verified first; on
success every module parameter value is overwritten with the
snapshot's value. The first component is the module's parameter state
after the call, so a failed call leaves the module unchanged
(all-or-nothing). -/
def applySnapshot (m snap : StateDict) : StateDict × Option InitError :=
  match checkShapes m snap with
  | some e => (m, some e)
  | none => (m.map fun p => (p.1, (snap.lookup p.1).getD p.2), none)

theorem checkShapes_none_lookup (m snap : StateDict)
    (h : checkShapes m snap = none) :
    ∀ p ∈ m, ∃ s, snap.lookup p.1 = some s ∧ p.2.shape = s.shape := by
  induction m with
  | nil => intro p hp; cases hp
  | cons q rest ih =>
    obtain ⟨n, t⟩ := q
    intro p hp
    cases hq : snap.lookup n with
    | none => unfold checkShapes at h; rw [hq] at h; cases h
    | some s =>
      by_cases hsh : t.shape = s.shape
      · have hrest : checkShapes rest snap = none := by
          unfold checkShapes at h; rw [hq] at h; simpa [hsh] using h
        rcases List.mem_cons.mp hp with rfl | hmem
        · exact ⟨s, hq, hsh⟩
        · exact ih hrest p hmem
      · unfold checkShapes at h; rw [hq] at h; simp [hsh] at h

theorem checkShapes_first_mismatch (m snap : StateDict)
    (hkeys : ∀ p ∈ m, (snap.lookup p.1).isSome)
    (hbad : ∃ p ∈ m, ∃ s, snap.lookup p.1 = some s ∧ p.2.shape ≠ s.shape) :
    ∃ n ms ss, checkShapes m snap = some (.shapeMismatch n ms ss) ∧ ms ≠ ss ∧
      ∃ t s, (n, t) ∈ m ∧ snap.lookup n = some s ∧
        t.shape = ms ∧ s.shape = ss := by
  induction m with
  | nil => rcases hbad with ⟨p, hp, _⟩; cases hp
  | cons q rest ih =>
    obtain ⟨n, t⟩ := q
    cases hq : snap.lookup n with
    | none =>
      have := hkeys (n, t) (List.mem_cons_self _ _)
      rw [hq] at this
      cases this
    | some s =>
      by_cases hsh : t.shape = s.shape
      · have hbad' : ∃ p ∈ rest, ∃ s, snap.lookup p.1 = some s ∧
            p.2.shape ≠ s.shape := by
          rcases hbad with ⟨p, hp, s', hs', hne⟩
          rcases List.mem_cons.mp hp with rfl | hmem
          · rw [hq] at hs'
            cases hs'
            exact absurd hsh hne
          · exact ⟨p, hmem, s', hs', hne⟩
        have hkeys' : ∀ p ∈ rest, (snap.lookup p.1).isSome := by
          intro p hp
          exact hkeys p (List.mem_cons_of_mem _ hp)
        rcases ih hkeys' hbad' with ⟨n', ms, ss, hchk, hne, t', s', hmem, hl, h1, h2⟩
        refine ⟨n', ms, ss, ?_, hne, t', s', List.mem_cons_of_mem _ hmem, hl, h1, h2⟩
        unfold checkShapes
        rw [hq]
        simpa [hsh] using hchk
      · refine ⟨n, t.shape, s.shape, ?_, hsh, t, s,
          List.mem_cons_self _ _, hq, rfl, rfl⟩
        unfold checkShapes
        rw [hq]
        simp [hsh]

theorem applySnapshot_ok (m snap : StateDict)
    (h : checkShapes m snap = none) :
    (applySnapshot m snap).2 = none ∧
    (applySnapshot m snap).1.map Prod.fst = m.map Prod.fst ∧
    ∀ p ∈ (applySnapshot m snap).1, snap.lookup p.1 = some p.2 := by
  unfold applySnapshot
  rw [h]
  refine ⟨rfl, ?_, ?_⟩
  · simp
  · intro p hp
    simp only [List.mem_map] at hp
    rcases hp with ⟨q, hq, rfl⟩
    rcases checkShapes_none_lookup m snap h q hq with ⟨s, hs, _⟩
    simp [hs]

/-- C4: for every module/snapshot pair in which all module identifiers
resolve in the snapshot but some parameter's snapshot shape differs
from its module shape, FROM_SNAPSHOT application fails with a
`ShapeMismatch` naming an offending identifier and its two (distinct)
shapes, and the module's parameter state is returned unchanged —
all-or-nothing application. -/
theorem C4_shape_mismatch_atomic (m snap : StateDict)
    (hkeys : ∀ p ∈ m, (snap.lookup p.1).isSome)
    (hbad : ∃ p ∈ m, ∃ s, snap.lookup p.1 = some s ∧ p.2.shape ≠ s.shape) :
    (applySnapshot m snap).1 = m ∧
    ∃ n ms ss, (applySnapshot m snap).2 = some (.shapeMismatch n ms ss) ∧
      ms ≠ ss ∧ ∃ t s, (n, t) ∈ m ∧ snap.lookup n = some s ∧
        t.shape = ms ∧ s.shape = ss := by
  rcases checkShapes_first_mismatch m snap hkeys hbad with
    ⟨n, ms, ss, hchk, hne, t, s, hmem, hl, h1, h2⟩
  have happ : applySnapshot m snap = (m, some (.shapeMismatch n ms ss)) := by
    unfold applySnapshot
    rw [hchk]
  rw [happ]
  exact ⟨rfl, n, ms, ss, rfl, hne, t, s, hmem, hl, h1, h2⟩

/-- Witness for C4_shape_mismatch_atomic: a one-parameter module whose
snapshot holds the same identifier at a different shape. -/
theorem C4_shape_mismatch_atomic_witness :
    (applySnapshot [("fc1.weight", ⟨[2, 3], [1, 1, 1, 1, 1, 1]⟩)]
        [("fc1.weight", ⟨[3, 2], [1, 1, 1, 1, 1, 1]⟩)]).1
      = [("fc1.weight", ⟨[2, 3], [1, 1, 1, 1, 1, 1]⟩)] ∧
    ∃ n ms ss,
      (applySnapshot [("fc1.weight", ⟨[2, 3], [1, 1, 1, 1, 1, 1]⟩)]
          [("fc1.weight", ⟨[3, 2], [1, 1, 1, 1, 1, 1]⟩)]).2
        = some (.shapeMismatch n ms ss) ∧ ms ≠ ss ∧
      ∃ t s, (n, t) ∈ [("fc1.weight", (⟨[2, 3], [1, 1, 1, 1, 1, 1]⟩ : Tensor))] ∧
        List.lookup n [("fc1.weight", (⟨[3, 2], [1, 1, 1, 1, 1, 1]⟩ : Tensor))]
          = some s ∧ t.shape = ms ∧ s.shape = ss :=
  C4_shape_mismatch_atomic _ _
    (by intro p hp; simp at hp; subst hp; rfl)
    ⟨("fc1.weight", ⟨[2, 3], [1, 1, 1, 1, 1, 1]⟩), by simp,
      ⟨[3, 2], [1, 1, 1, 1, 1, 1]⟩, by rfl, by simp⟩

/-- Configuration fields of `RegularizedNet` relevant to loss and
initialization, with the keyword defaults of `__init__`
(`lambda1=0.01, reinit_from_pretrain=False, pretrained_nn=None`). The
`pretrained_nn` handle stands for the deserialized contents of the
pickle; file I/O is an external collaborator, so a present handle
carries the snapshot itself. -/
structure RegularizedNetCfg where
  lambda1 : ℚ := defaultLambda1
  reinit_from_pretrain : Bool := false
  pretrained_nn : Option StateDict := none
deriving Repr, DecidableEq

/-- Embeds `RegularizedNet.initialize_module`:
`super().initialize_module()` (re)builds the module, leaving its
parameters at their default random initialization `dflt`; then, iff
`reinit_from_pretrain`, `self.module_.load_state_dict(torch.load(self.pretrained_nn))`
overwrites the parameters from the snapshot. Returns the resulting
parameter state together with an error, if any (`torch.load(None)`
cannot load and is a `loadFailure`). -/
def initialize_module (cfg : RegularizedNetCfg) (dflt : StateDict) :
    StateDict × Option InitError :=
  if cfg.reinit_from_pretrain then
    match cfg.pretrained_nn with
    | some snap => applySnapshot dflt snap
    | none => (dflt, some .loadFailure)
  else (dflt, none)

/-- Modelled from the spec: skorch fit-preparation. `fit` (re)builds the
module and invokes the Weight Initialization Policy — here
`initialize_module` — exactly once before any training epoch runs; the
skorch training-loop body performing this call is not part of this
repository. The second component counts policy invocations. -/
def fitPrepare (cfg : RegularizedNetCfg) (dflt : StateDict) :
    (StateDict × Option InitError) × Nat :=
  (initialize_module cfg dflt, 1)

/-- C1: fit-preparation invokes the Weight Initialization Policy
exactly once; with `reinit_from_pretrain = true` and a shape-compatible
snapshot every module parameter value is overwritten with the
snapshot's value for its identifier (identifiers preserved), and with
`reinit_from_pretrain = false` the module keeps its default random
initialization unchanged. -/
theorem C1_init_policy_once (cfg cfg0 : RegularizedNetCfg)
    (dflt snap : StateDict)
    (hre : cfg.reinit_from_pretrain = true)
    (hsnap : cfg.pretrained_nn = some snap)
    (hok : checkShapes dflt snap = none)
    (hre0 : cfg0.reinit_from_pretrain = false) :
    (fitPrepare cfg dflt).2 = 1 ∧ (fitPrepare cfg0 dflt).2 = 1 ∧
    (fitPrepare cfg dflt).1.2 = none ∧
    (fitPrepare cfg dflt).1.1.map Prod.fst = dflt.map Prod.fst ∧
    (∀ p ∈ (fitPrepare cfg dflt).1.1, snap.lookup p.1 = some p.2) ∧
    (fitPrepare cfg0 dflt).1.1 = dflt := by
  have h1 : (fitPrepare cfg dflt).1 = applySnapshot dflt snap := by
    unfold fitPrepare initialize_module
    rw [hre, hsnap]
    simp
  have h0 : (fitPrepare cfg0 dflt).1 = (dflt, none) := by
    unfold fitPrepare initialize_module
    rw [hre0]
    simp
  rcases applySnapshot_ok dflt snap hok with ⟨he, hk, hv⟩
  refine ⟨rfl, rfl, ?_, ?_, ?_, ?_⟩
  · rw [h1]; exact he
  · rw [h1]; exact hk
  · rw [h1]; exact hv
  · rw [h0]

/-- Witness for C1_init_policy_once: a one-parameter module, a
matching-shape snapshot, one estimator warm-starting from it and one
estimator with the default random initialization. -/
theorem C1_init_policy_once_witness :
    (fitPrepare ⟨0, true, some [("fc1.weight", ⟨[2], [7, 8]⟩)]⟩
        [("fc1.weight", ⟨[2], [1, 2]⟩)]).2 = 1 ∧
    (fitPrepare ⟨0, false, none⟩ [("fc1.weight", ⟨[2], [1, 2]⟩)]).2 = 1 ∧
    (fitPrepare ⟨0, true, some [("fc1.weight", ⟨[2], [7, 8]⟩)]⟩
        [("fc1.weight", ⟨[2], [1, 2]⟩)]).1.2 = none ∧
    (fitPrepare ⟨0, true, some [("fc1.weight", ⟨[2], [7, 8]⟩)]⟩
        [("fc1.weight", ⟨[2], [1, 2]⟩)]).1.1.map Prod.fst
      = [("fc1.weight", (⟨[2], [1, 2]⟩ : Tensor))].map Prod.fst ∧
    (∀ p ∈ (fitPrepare ⟨0, true, some [("fc1.weight", ⟨[2], [7, 8]⟩)]⟩
        [("fc1.weight", ⟨[2], [1, 2]⟩)]).1.1,
      List.lookup p.1 [("fc1.weight", (⟨[2], [7, 8]⟩ : Tensor))] = some p.2) ∧
    (fitPrepare ⟨0, false, none⟩ [("fc1.weight", ⟨[2], [1, 2]⟩)]).1.1
      = [("fc1.weight", ⟨[2], [1, 2]⟩)] :=
  C1_init_policy_once ⟨0, true, some [("fc1.weight", ⟨[2], [7, 8]⟩)]⟩
    ⟨0, false, none⟩ [("fc1.weight", ⟨[2], [1, 2]⟩)]
    [("fc1.weight", ⟨[2], [7, 8]⟩)] rfl rfl (by rfl) rfl

/-- Signal returned by the Early Stopping Monitor after each
observation. -/
inductive StopSignal where
  | keepGoing
  | stop
deriving Repr, DecidableEq

/-- Modelled from the spec: the state of the Early Stopping Monitor
(§4.3). The skorch EarlyStopping callback realizing it is library
code, not part of this repository. -/
structure Monitor where
  best_value : Option ℚ
  epochs_since_improvement : Nat
  patience : Nat
  higher_is_better : Bool
deriving Repr, DecidableEq

/-- A fresh monitor for one fit: no best value seen yet. -/
def Monitor.fresh (patience : Nat) (higher_is_better : Bool) : Monitor :=
  ⟨none, 0, patience, higher_is_better⟩

/-- Whether `v` improves upon the best value so far, by the configured
comparison direction; a value exactly equal to the best is not an
improvement. -/
def improvesUpon (higher_is_better : Bool) (v best : ℚ) : Bool :=
  if higher_is_better then best < v else v < best

/-- Modelled from the spec: `observe` (§4.3). The first observation
becomes the best value; an improving observation updates the best and
resets the counter; a non-improving one increments the counter and
signals `stop` once the counter has reached the patience (so
`patience = 0` stops on the first non-improving observation). -/
def Monitor.observe (mon : Monitor) (v : ℚ) : Monitor × StopSignal :=
  match mon.best_value with
  | none => ({ mon with best_value := some v }, .keepGoing)
  | some b =>
    if improvesUpon mon.higher_is_better v b then
      ({ mon with best_value := some v, epochs_since_improvement := 0 },
        .keepGoing)
    else
      ({ mon with epochs_since_improvement := mon.epochs_since_improvement + 1 },
        if mon.patience ≤ mon.epochs_since_improvement + 1 then .stop
        else .keepGoing)

/-- Feeds a sequence of metric observations to a monitor, collecting
the signal of each call. -/
def runMonitor (mon : Monitor) (vs : List ℚ) : List StopSignal :=
  match vs with
  | [] => []
  | v :: rest => (mon.observe v).2 :: runMonitor (mon.observe v).1 rest

/-- C5: fed [0.80, 0.85, 0.85, 0.85, 0.85, 0.85] with patience 3 and
higher-is-better, the monitor returns `continue` on calls 1–4 and
`stop` on call 5; in general an observation exactly equal to the best
value counts as non-improving (counter incremented, best unchanged),
and — as long as the counter has not yet reached the patience — `stop`
is signalled exactly when the updated counter reaches the patience on
a non-improving observation. -/
theorem C5_early_stopping (mon : Monitor) (b v : ℚ)
    (hb : mon.best_value = some b)
    (hlt : mon.epochs_since_improvement < mon.patience) :
    (runMonitor (Monitor.fresh 3 true)
        [4/5, 17/20, 17/20, 17/20, 17/20, 17/20]).take 5
      = [.keepGoing, .keepGoing, .keepGoing, .keepGoing, .stop] ∧
    ((mon.observe b).1.epochs_since_improvement
        = mon.epochs_since_improvement + 1 ∧
      (mon.observe b).1.best_value = some b) ∧
    ((mon.observe v).2 = StopSignal.stop ↔
      improvesUpon mon.higher_is_better v b = false ∧
        (mon.observe v).1.epochs_since_improvement = mon.patience) := by
  refine ⟨?_, ?_, ?_⟩
  · norm_num [runMonitor, Monitor.observe, Monitor.fresh, improvesUpon]
  · have hni : improvesUpon mon.higher_is_better b b = false := by
      unfold improvesUpon
      cases mon.higher_is_better <;> simp
    unfold Monitor.observe
    rw [hb]
    simp [hni]
  · unfold Monitor.observe
    rw [hb]
    by_cases himp : improvesUpon mon.higher_is_better v b
    · simp [himp]
    · by_cases hle : mon.patience ≤ mon.epochs_since_improvement + 1
      · simp [himp, hle]
        omega
      · simp [himp, hle]
        omega

/-- Witness for C5_early_stopping: a monitor mid-run with best value 1,
counter 0, patience 2, observing a tie and a non-improving value. -/
theorem C5_early_stopping_witness :
    (runMonitor (Monitor.fresh 3 true)
        [4/5, 17/20, 17/20, 17/20, 17/20, 17/20]).take 5
      = [.keepGoing, .keepGoing, .keepGoing, .keepGoing, .stop] ∧
    (((⟨some 1, 0, 2, true⟩ : Monitor).observe 1).1.epochs_since_improvement
        = 0 + 1 ∧
      ((⟨some 1, 0, 2, true⟩ : Monitor).observe 1).1.best_value = some 1) ∧
    (((⟨some 1, 0, 2, true⟩ : Monitor).observe 1).2 = StopSignal.stop ↔
      improvesUpon true 1 1 = false ∧
        ((⟨some 1, 0, 2, true⟩ : Monitor).observe 1).1.epochs_since_improvement
          = 2) :=
  C5_early_stopping ⟨some 1, 0, 2, true⟩ 1 1 rfl (by decide)

/-- A floating-point-style loss observation: a finite (exact rational)
value, or one of the non-finite outcomes NaN / +infinity / -infinity. -/
inductive LossVal where
  | finite (q : ℚ)
  | nan
  | posInf
  | negInf
deriving Repr, DecidableEq

/-- Whether a loss observation is finite (neither NaN nor ±infinity). -/
def LossVal.isFinite : LossVal → Bool
  | .finite _ => true
  | _ => false

/-- Errors of a single fit. -/
inductive FitError where
  | numericalDivergence
deriving Repr, DecidableEq

/-- Modelled from the spec: the divergence guard of the Trainable
Estimator's batch loop (§4.4 failure modes — a behavior the spec
requires even though the reference notebook's skorch loop, which is
library code outside this repository, lacks it). The per-batch loss
stream is consumed in order; the first non-finite loss aborts the fit
with `NumericalDivergenceError`, otherwise the fit completes all
batches. Returns the number of batches completed. -/
def runBatches : List LossVal → Except FitError Nat
  | [] => .ok 0
  | l :: rest =>
    if l.isFinite then
      match runBatches rest with
      | .ok n => .ok (n + 1)
      | .error e => .error e
    else .error .numericalDivergence

theorem runBatches_ok_of_all (losses : List LossVal)
    (h : losses.all LossVal.isFinite = true) :
    runBatches losses = .ok losses.length := by
  induction losses with
  | nil => rfl
  | cons l rest ih =>
    simp only [List.all_cons, Bool.and_eq_true] at h
    simp [runBatches, h.1, ih h.2]

theorem runBatches_error_of_bad (losses : List LossVal)
    (h : ∃ l ∈ losses, l.isFinite = false) :
    runBatches losses = .error .numericalDivergence := by
  induction losses with
  | nil =>
    rcases h with ⟨l, hl, _⟩
    cases hl
  | cons l rest ih =>
    by_cases hf : l.isFinite = true
    · have hrest : ∃ q ∈ rest, q.isFinite = false := by
        rcases h with ⟨q, hq, hnf⟩
        rcases List.mem_cons.mp hq with rfl | hm
        · rw [hf] at hnf
          cases hnf
        · exact ⟨q, hm, hnf⟩
      simp [runBatches, hf, ih hrest]
    · simp [runBatches, hf]

/-- C8: a fit whose loss becomes NaN or Inf at some batch aborts with
`NumericalDivergenceError` — and only such a fit does; a fit whose
losses all stay finite completes every batch instead. -/
theorem C8_divergence_aborts (losses : List LossVal) :
    (runBatches losses = .error .numericalDivergence ↔
      ∃ l ∈ losses, l.isFinite = false) ∧
    (runBatches losses = .ok losses.length ↔
      losses.all LossVal.isFinite = true) := by
  by_cases hall : losses.all LossVal.isFinite = true
  · have hok := runBatches_ok_of_all losses hall
    have hnobad : ¬ ∃ l ∈ losses, l.isFinite = false := by
      simp only [List.all_eq_true] at hall
      rintro ⟨l, hl, hnf⟩
      rw [hall l hl] at hnf
      cases hnf
    exact ⟨⟨fun h => absurd (hok ▸ h) (by simp),
            fun h => absurd h hnobad⟩,
           ⟨fun _ => hall, fun _ => hok⟩⟩
  · have hbad : ∃ l ∈ losses, l.isFinite = false := by
      simp only [List.all_eq_true] at hall
      push_neg at hall
      rcases hall with ⟨l, hl, hne⟩
      exact ⟨l, hl, Bool.eq_false_iff.mpr hne⟩
    have herr := runBatches_error_of_bad losses hbad
    exact ⟨⟨fun _ => hbad, fun _ => herr⟩,
           ⟨fun h => absurd (herr ▸ h) (by simp),
            fun h => absurd h hall⟩⟩

/-- How a fit's epoch loop ended. -/
inductive StopKind where
  | stoppedEarly
  | exhaustedBudget
deriving Repr, DecidableEq

/-- State of one fit: the current module parameters, the per-epoch
validation-metric history, and the Early Stopping Monitor. -/
structure FitState (Params : Type) where
  params : Params
  history : List ℚ
  monitor : Monitor

/-- Modelled from the spec: the Trainable Estimator's epoch loop
(§4.4), realized by the skorch training loop outside this repository.
Each epoch applies one optimizer pass `trainEpoch` to the parameters,
computes the validation metric on the new parameters, appends it to
the metric history, and consults the Early Stopping Monitor; the loop
exits on `stop` (STOPPED_EARLY) or once the epoch budget is exhausted
(EXHAUSTED_BUDGET). The final state keeps whatever parameters the last
executed epoch produced. -/
def runEpochs {Params : Type} (trainEpoch : Params → Params)
    (metric : Params → ℚ) :
    Nat → FitState Params → FitState Params × StopKind
  | 0, s => (s, .exhaustedBudget)
  | budget + 1, s =>
    match s.monitor.observe (metric (trainEpoch s.params)) with
    | (mon, .stop) =>
      (⟨trainEpoch s.params, s.history ++ [metric (trainEpoch s.params)], mon⟩,
        .stoppedEarly)
    | (mon, .keepGoing) =>
      runEpochs trainEpoch metric budget
        ⟨trainEpoch s.params, s.history ++ [metric (trainEpoch s.params)], mon⟩

theorem runEpochs_params {Params : Type} (trainEpoch : Params → Params)
    (metric : Params → ℚ) :
    ∀ (budget : Nat) (s : FitState Params),
      s.history.length ≤ (runEpochs trainEpoch metric budget s).1.history.length ∧
      (runEpochs trainEpoch metric budget s).1.params
        = trainEpoch^[(runEpochs trainEpoch metric budget s).1.history.length
            - s.history.length] s.params := by
  intro budget
  induction budget with
  | zero =>
    intro s
    simp [runEpochs]
  | succ b ih =>
    intro s
    cases hob : s.monitor.observe (metric (trainEpoch s.params)) with
    | mk mon sig =>
      cases sig with
      | stop =>
        have hrun : runEpochs trainEpoch metric (b + 1) s
            = (⟨trainEpoch s.params,
                s.history ++ [metric (trainEpoch s.params)], mon⟩,
               .stoppedEarly) := by
          simp only [runEpochs, hob]
        rw [hrun]
        simp
      | keepGoing =>
        have hrun : runEpochs trainEpoch metric (b + 1) s
            = runEpochs trainEpoch metric b
                ⟨trainEpoch s.params,
                  s.history ++ [metric (trainEpoch s.params)], mon⟩ := by
          simp only [runEpochs, hob]
        rw [hrun]
        rcases ih ⟨trainEpoch s.params,
          s.history ++ [metric (trainEpoch s.params)], mon⟩ with ⟨hlen, hpar⟩
        simp only [List.length_append, List.length_cons, List.length_nil] at hlen hpar
        constructor
        · omega
        · rw [hpar]
          have hsucc :
              (runEpochs trainEpoch metric b
                  ⟨trainEpoch s.params,
                    s.history ++ [metric (trainEpoch s.params)],
                    mon⟩).1.history.length - s.history.length
                = ((runEpochs trainEpoch metric b
                    ⟨trainEpoch s.params,
                      s.history ++ [metric (trainEpoch s.params)],
                      mon⟩).1.history.length - (s.history.length + 1)) + 1 := by
            omega
          rw [hsucc, Function.iterate_succ_apply]

/-- C9: after a completed fit — whether it stopped early or exhausted
the epoch budget — the module parameters are exactly the result of
applying one training epoch per recorded metric-history entry to the
initial parameters: the values held at the final executed epoch, with
no rollback to the best-validation-metric epoch. -/
theorem C9_no_rollback {Params : Type} (trainEpoch : Params → Params)
    (metric : Params → ℚ) (budget : Nat) (p0 : Params) (mon : Monitor) :
    (runEpochs trainEpoch metric budget ⟨p0, [], mon⟩).1.params
      = trainEpoch^[(runEpochs trainEpoch metric budget
          ⟨p0, [], mon⟩).1.history.length] p0 := by
  have h := (runEpochs_params trainEpoch metric budget ⟨p0, [], mon⟩).2
  simpa using h

/-- One hyperparameter combination: an assignment of a value to each
grid key, in the grid's key order. -/
abbrev Combo : Type := List (String × ℚ)

/-- Modelled from the spec: enumeration of the Cartesian product of the
grid's value lists (§4.5 step 1), in deterministic order — the
sklearn ParameterGrid enumeration is library code outside this
repository. The first key varies slowest. -/
def enumerateGrid : List (String × List ℚ) → List Combo
  | [] => [[]]
  | (key, vals) :: rest =>
    vals.flatMap fun v => (enumerateGrid rest).map fun c => (key, v) :: c

/-- Modelled from the spec: the fit plan of the orchestrator — one
fresh, independent estimator fit per (combination, fold index) pair
(§4.5 step 3). -/
def fitPlan (grid : List (String × List ℚ)) (k : Nat) : List (Combo × Nat) :=
  (enumerateGrid grid).flatMap fun c => (List.range k).map fun i => (c, i)

/-- Arithmetic mean of a list of scores. -/
def meanScore (xs : List ℚ) : ℚ := xs.sum / xs.length

/-- Modelled from the spec: per-combination aggregation with failure
propagation (§4.5 step 4 and failure policy). The combination is fitted
and scored on every fold; if any fold's fit fails (score `none`), the
combination aggregates to `none` — the -infinity sentinel, which can
never win — otherwise to the arithmetic mean of its per-fold scores. -/
def aggregate (fitScore : Combo → Nat → Option ℚ) (k : Nat) (c : Combo) :
    Option ℚ :=
  if ((List.range k).map (fitScore c)).all Option.isSome then
    some (meanScore ((List.range k).map (fitScore c)).reduceOption)
  else none

/-- Modelled from the spec: best-combination selection — the highest
aggregate score, ties broken in favor of the earliest-enumerated
combination (§4.5 step 4). -/
def firstMax {α : Type} : List (α × ℚ) → Option (α × ℚ)
  | [] => none
  | x :: rest =>
    match firstMax rest with
    | none => some x
    | some y => if x.2 < y.2 then some y else some x

/-- The viable combinations with their aggregate scores, in enumeration
order: combinations whose every fold succeeded. -/
def viableResults (fitScore : Combo → Nat → Option ℚ)
    (grid : List (String × List ℚ)) (k : Nat) : List (Combo × ℚ) :=
  ((enumerateGrid grid).map fun c => (c, aggregate fitScore k c)).filterMap
    fun p => p.2.map fun s => (p.1, s)

/-- Error of the whole search. -/
inductive GridSearchError where
  | noViableCombination
deriving Repr, DecidableEq

/-- Modelled from the spec: the Cross-Validated Grid Search
Orchestrator (§4.5), realized in the reference workflow by sklearn
GridSearchCV, which is library code outside this repository. Enumerates
the grid, aggregates per-fold scores per combination, and selects the
first-enumerated combination with the highest aggregate score; if no
combination is viable the search fails with
`NoViableCombinationError`. -/
def search (fitScore : Combo → Nat → Option ℚ)
    (grid : List (String × List ℚ)) (k : Nat) :
    Except GridSearchError (Combo × ℚ) :=
  match firstMax (viableResults fitScore grid k) with
  | none => .error .noViableCombination
  | some best => .ok best

/-- Per-combination mean scores for a total (never-failing) scoring
function, in enumeration order. -/
def comboMeans (score : Combo → Nat → ℚ) (grid : List (String × List ℚ))
    (k : Nat) : List (Combo × ℚ) :=
  (enumerateGrid grid).map fun c =>
    (c, meanScore ((List.range k).map (score c)))

theorem firstMax_cons_isSome {α : Type} (x : α × ℚ) (rest : List (α × ℚ)) :
    (firstMax (x :: rest)).isSome = true := by
  unfold firstMax
  cases firstMax rest with
  | none => rfl
  | some y =>
    by_cases h : x.2 < y.2 <;> simp [h]

theorem firstMax_isSome_of_ne_nil {α : Type} (l : List (α × ℚ))
    (h : l ≠ []) : ∃ b, firstMax l = some b := by
  cases l with
  | nil => exact absurd rfl h
  | cons x rest =>
    have := firstMax_cons_isSome x rest
    cases hb : firstMax (x :: rest) with
    | none => rw [hb] at this; cases this
    | some b => exact ⟨b, rfl⟩

theorem firstMax_decomp {α : Type} :
    ∀ (l : List (α × ℚ)) (b : α × ℚ), firstMax l = some b →
      ∃ pre suf, l = pre ++ b :: suf ∧
        (∀ r ∈ l, r.2 ≤ b.2) ∧ (∀ r ∈ pre, r.2 < b.2) := by
  intro l
  induction l with
  | nil =>
    intro b hb
    cases hb
  | cons x rest ih =>
    intro b hb
    cases hrest : firstMax rest with
    | none =>
      have hnil : rest = [] := by
        cases rest with
        | nil => rfl
        | cons y t =>
          have := firstMax_cons_isSome y t
          rw [hrest] at this
          cases this
      subst hnil
      unfold firstMax at hb
      cases hb
      exact ⟨[], [], rfl, by simp, by simp⟩
    | some y =>
      unfold firstMax at hb
      rw [hrest] at hb
      dsimp only at hb
      by_cases hxy : x.2 < y.2
      · rw [if_pos hxy] at hb
        cases hb
        rcases ih b hrest with ⟨pre, suf, hsplit, hall, hpre⟩
        refine ⟨x :: pre, suf, by rw [hsplit]; rfl, ?_, ?_⟩
        · intro r hr
          rcases List.mem_cons.mp hr with rfl | hm
          · exact le_of_lt hxy
          · exact hall r hm
        · intro r hr
          rcases List.mem_cons.mp hr with rfl | hm
          · exact hxy
          · exact hpre r hm
      · rw [if_neg hxy] at hb
        cases hb
        rcases ih y hrest with ⟨pre, suf, hsplit, hall, hpre⟩
        refine ⟨[], rest, rfl, ?_, by simp⟩
        intro r hr
        rcases List.mem_cons.mp hr with rfl | hm
        · exact le_refl _
        · exact le_trans (hall r hm) (not_lt.mp hxy)

theorem firstMax_mem {α : Type} (l : List (α × ℚ)) (b : α × ℚ)
    (h : firstMax l = some b) : b ∈ l := by
  rcases firstMax_decomp l b h with ⟨pre, suf, hsplit, _, _⟩
  rw [hsplit]
  simp

theorem reduceOption_map_some {α β : Type} (l : List α) (g : α → β) :
    (l.map fun i => some (g i)).reduceOption = l.map g := by
  induction l with
  | nil => rfl
  | cons x xs ih => simp [List.reduceOption_cons_of_some, ih]

theorem aggregate_total (score : Combo → Nat → ℚ) (k : Nat) (c : Combo) :
    aggregate (fun c i => some (score c i)) k c
      = some (meanScore ((List.range k).map (score c))) := by
  unfold aggregate
  have hall : ((List.range k).map fun i => some (score c i)).all
      Option.isSome = true := by
    rw [List.all_eq_true]
    intro x hx
    rcases List.mem_map.mp hx with ⟨i, _, rfl⟩
    rfl
  simp only [hall, if_true, reduceOption_map_some]

theorem viableResults_total (score : Combo → Nat → ℚ)
    (grid : List (String × List ℚ)) (k : Nat) :
    viableResults (fun c i => some (score c i)) grid k
      = comboMeans score grid k := by
  unfold viableResults comboMeans
  induction enumerateGrid grid with
  | nil => rfl
  | cons c cs ih =>
    rw [List.map_cons, List.filterMap_cons, ih]
    simp [aggregate_total]

theorem search_total (score : Combo → Nat → ℚ)
    (grid : List (String × List ℚ)) (k : Nat) :
    search (fun c i => some (score c i)) grid k
      = match firstMax (comboMeans score grid k) with
        | none => .error .noViableCombination
        | some best => .ok best := by
  unfold search
  rw [viableResults_total]

theorem aggregate_none_of_fold_failure (fitScore : Combo → Nat → Option ℚ)
    (k : Nat) (c : Combo) (i : Nat) (hik : i < k)
    (hfail : fitScore c i = none) : aggregate fitScore k c = none := by
  unfold aggregate
  have hnall : ¬ ((List.range k).map (fitScore c)).all Option.isSome = true := by
    intro hall
    rw [List.all_eq_true] at hall
    have hmem : fitScore c i ∈ (List.range k).map (fitScore c) :=
      List.mem_map_of_mem _ (List.mem_range.mpr hik)
    have := hall _ hmem
    rw [hfail] at this
    simp at this
  simp [hnall]

theorem mem_viableResults (fitScore : Combo → Nat → Option ℚ)
    (grid : List (String × List ℚ)) (k : Nat) (b : Combo × ℚ)
    (h : b ∈ viableResults fitScore grid k) :
    b.1 ∈ enumerateGrid grid ∧ aggregate fitScore k b.1 = some b.2 := by
  unfold viableResults at h
  rcases List.mem_filterMap.mp h with ⟨p, hp, hmap⟩
  rcases List.mem_map.mp hp with ⟨c, hc, rfl⟩
  cases hagg : aggregate fitScore k c with
  | none =>
    rw [hagg] at hmap
    cases hmap
  | some s =>
    rw [hagg] at hmap
    obtain rfl : (c, s) = b := by simpa using hmap
    exact ⟨hc, hagg⟩

theorem viableResults_mem (fitScore : Combo → Nat → Option ℚ)
    (grid : List (String × List ℚ)) (k : Nat) (c : Combo) (s : ℚ)
    (hc : c ∈ enumerateGrid grid) (hs : aggregate fitScore k c = some s) :
    (c, s) ∈ viableResults fitScore grid k := by
  unfold viableResults
  apply List.mem_filterMap.mpr
  exact ⟨(c, aggregate fitScore k c), List.mem_map_of_mem _ hc,
    by rw [hs]; rfl⟩

theorem viableResults_nil (fitScore : Combo → Nat → Option ℚ)
    (grid : List (String × List ℚ)) (k : Nat)
    (h : ∀ c ∈ enumerateGrid grid, aggregate fitScore k c = none) :
    viableResults fitScore grid k = [] := by
  unfold viableResults
  revert h
  generalize enumerateGrid grid = cs
  intro h
  induction cs with
  | nil => rfl
  | cons c cs ih =>
    have hc := h c (List.mem_cons_self _ _)
    have ih2 := ih fun c' hc' => h c' (List.mem_cons_of_mem _ hc')
    simp only [List.map_cons, List.filterMap_cons, hc, Option.map_none']
    exact ih2

/-- C7: a failing (combination, fold) fit makes that combination's
aggregate score the -infinity sentinel (`none`), so it can never be
selected as best; as long as some combination is fully viable the
search still succeeds with a viable best, and only when every
combination fails does the search itself fail, with
`NoViableCombinationError`. -/
theorem C7_failure_propagation (grid : List (String × List ℚ)) (k : Nat)
    (fitScore : Combo → Nat → Option ℚ) :
    (∀ c i, i < k → fitScore c i = none → aggregate fitScore k c = none) ∧
    ((∃ c ∈ enumerateGrid grid, (aggregate fitScore k c).isSome = true) →
      ∃ best, search fitScore grid k = .ok best ∧
        aggregate fitScore k best.1 = some best.2 ∧
        ∀ c, aggregate fitScore k c = none → best.1 ≠ c) ∧
    ((∀ c ∈ enumerateGrid grid, aggregate fitScore k c = none) →
      search fitScore grid k = .error .noViableCombination) := by
  refine ⟨?_, ?_, ?_⟩
  · intro c i hik hfail
    exact aggregate_none_of_fold_failure fitScore k c i hik hfail
  · rintro ⟨c, hc, hsome⟩
    rcases Option.isSome_iff_exists.mp hsome with ⟨s, hs⟩
    have hmem := viableResults_mem fitScore grid k c s hc hs
    have hne : viableResults fitScore grid k ≠ [] :=
      List.ne_nil_of_mem hmem
    rcases firstMax_isSome_of_ne_nil _ hne with ⟨best, hbest⟩
    have hsearch : search fitScore grid k = .ok best := by
      unfold search
      rw [hbest]
    rcases mem_viableResults fitScore grid k best
      (firstMax_mem _ _ hbest) with ⟨_, hagg⟩
    refine ⟨best, hsearch, hagg, ?_⟩
    intro c' hc' heq
    rw [heq, hc'] at hagg
    cases hagg
  · intro hall
    have hnil := viableResults_nil fitScore grid k hall
    unfold search
    rw [hnil]
    rfl

/-- Scoring function for the C7 witness: fits of the first-enumerated
combination fail, fits of any other combination score 1. -/
def mixedFitScore : Combo → Nat → Option ℚ :=
  fun c _ => if c = [("lr", 1)] then none else some 1

/-- Witness for C7_failure_propagation on the one-key grid with lr values 1 and 2,
searched with 2 folds: the failing combination aggregates to the sentinel, the
search still picks a viable best, and with an all-failing scoring
function the search returns `NoViableCombinationError`. -/
theorem C7_failure_propagation_witness :
    aggregate mixedFitScore 2 [("lr", 1)] = none ∧
    (∃ best, search mixedFitScore [("lr", [1, 2])] 2 = .ok best ∧
      aggregate mixedFitScore 2 best.1 = some best.2 ∧
      ∀ c, aggregate mixedFitScore 2 c = none → best.1 ≠ c) ∧
    search (fun _ _ => none) [("lr", [1, 2])] 2
      = .error .noViableCombination :=
  ⟨(C7_failure_propagation [("lr", [1, 2])] 2 mixedFitScore).1
      [("lr", 1)] 0 (by norm_num) rfl,
   (C7_failure_propagation [("lr", [1, 2])] 2 mixedFitScore).2.1
      ⟨[("lr", 2)], by simp [enumerateGrid], rfl⟩,
   (C7_failure_propagation [("lr", [1, 2])] 2 (fun _ _ => none)).2.2
      (fun c _ => rfl)⟩

/-- C6: for a 2×2 grid searched with 3 folds, the orchestrator's fit
plan is exactly the 12 enumeration-ordered (combination, fold) pairs —
one fresh, independent estimator fit per pair — the per-combination
aggregate is the arithmetic mean of the 3 per-fold scores, and a
successful search reports the first-enumerated combination with the
highest mean: no combination's mean exceeds the best's, and every
combination enumerated before the best has a strictly smaller mean. -/
theorem C6_grid_2x2_threefold (n1 n2 : String) (a1 a2 b1 b2 : ℚ)
    (score : Combo → Nat → ℚ) (best : Combo × ℚ)
    (hbest : search (fun c i => some (score c i))
        [(n1, [a1, a2]), (n2, [b1, b2])] 3 = .ok best) :
    fitPlan [(n1, [a1, a2]), (n2, [b1, b2])] 3
      = [([(n1, a1), (n2, b1)], 0), ([(n1, a1), (n2, b1)], 1),
         ([(n1, a1), (n2, b1)], 2),
         ([(n1, a1), (n2, b2)], 0), ([(n1, a1), (n2, b2)], 1),
         ([(n1, a1), (n2, b2)], 2),
         ([(n1, a2), (n2, b1)], 0), ([(n1, a2), (n2, b1)], 1),
         ([(n1, a2), (n2, b1)], 2),
         ([(n1, a2), (n2, b2)], 0), ([(n1, a2), (n2, b2)], 1),
         ([(n1, a2), (n2, b2)], 2)] ∧
    (fitPlan [(n1, [a1, a2]), (n2, [b1, b2])] 3).length = 12 ∧
    (∀ c, meanScore ((List.range 3).map (score c))
      = (score c 0 + score c 1 + score c 2) / 3) ∧
    ∃ pre suf,
      comboMeans score [(n1, [a1, a2]), (n2, [b1, b2])] 3
        = pre ++ best :: suf ∧
      (∀ r ∈ comboMeans score [(n1, [a1, a2]), (n2, [b1, b2])] 3,
        r.2 ≤ best.2) ∧
      (∀ r ∈ pre, r.2 < best.2) := by
  have hst := search_total score [(n1, [a1, a2]), (n2, [b1, b2])] 3
  rw [hbest] at hst
  have hfm : firstMax (comboMeans score [(n1, [a1, a2]), (n2, [b1, b2])] 3)
      = some best := by
    cases hf : firstMax (comboMeans score [(n1, [a1, a2]), (n2, [b1, b2])] 3) with
    | none =>
      rw [hf] at hst
      cases hst
    | some b =>
      rw [hf] at hst
      cases hst
      rfl
  refine ⟨rfl, rfl, ?_, ?_⟩
  · intro c
    show meanScore ((List.range 3).map (score c)) = _
    have hr : List.range 3 = [0, 1, 2] := rfl
    rw [hr]
    unfold meanScore
    simp
    ring
  · exact firstMax_decomp _ best hfm

/-- Witness for C6_grid_2x2_threefold: the grid with alpha values 1 and 2
and beta values 3 and 4 with a constant per-fold score of 1, where the tie
is broken in favor of the first-enumerated combination. -/
theorem C6_grid_2x2_threefold_witness :
    fitPlan [("alpha", [1, 2]), ("beta", [3, 4])] 3
      = [([("alpha", 1), ("beta", 3)], 0), ([("alpha", 1), ("beta", 3)], 1),
         ([("alpha", 1), ("beta", 3)], 2),
         ([("alpha", 1), ("beta", 4)], 0), ([("alpha", 1), ("beta", 4)], 1),
         ([("alpha", 1), ("beta", 4)], 2),
         ([("alpha", 2), ("beta", 3)], 0), ([("alpha", 2), ("beta", 3)], 1),
         ([("alpha", 2), ("beta", 3)], 2),
         ([("alpha", 2), ("beta", 4)], 0), ([("alpha", 2), ("beta", 4)], 1),
         ([("alpha", 2), ("beta", 4)], 2)] ∧
    (fitPlan [("alpha", [1, 2]), ("beta", [3, 4])] 3).length = 12 ∧
    (∀ c, meanScore ((List.range 3).map ((fun (_ : Combo) (_ : Nat) => (1 : ℚ)) c))
      = ((fun (_ : Combo) (_ : Nat) => (1 : ℚ)) c 0
          + (fun (_ : Combo) (_ : Nat) => (1 : ℚ)) c 1
          + (fun (_ : Combo) (_ : Nat) => (1 : ℚ)) c 2) / 3) ∧
    ∃ pre suf,
      comboMeans (fun _ _ => (1 : ℚ)) [("alpha", [1, 2]), ("beta", [3, 4])] 3
        = pre ++ ([("alpha", 1), ("beta", 3)], (1 : ℚ)) :: suf ∧
      (∀ r ∈ comboMeans (fun _ _ => (1 : ℚ))
          [("alpha", [1, 2]), ("beta", [3, 4])] 3,
        r.2 ≤ (([("alpha", 1), ("beta", 3)], (1 : ℚ))).2) ∧
      (∀ r ∈ pre, r.2 < (([("alpha", 1), ("beta", 3)], (1 : ℚ))).2) :=
  C6_grid_2x2_threefold "alpha" "beta" 1 2 3 4 (fun _ _ => 1)
    ([("alpha", 1), ("beta", 3)], 1) (by
      rw [search_total]
      have hcm : comboMeans (fun _ _ => (1 : ℚ))
          [("alpha", [1, 2]), ("beta", [3, 4])] 3
          = [([("alpha", 1), ("beta", 3)], 1), ([("alpha", 1), ("beta", 4)], 1),
             ([("alpha", 2), ("beta", 3)], 1),
             ([("alpha", 2), ("beta", 4)], 1)] := by
        have hr : List.range 3 = [0, 1, 2] := rfl
        norm_num [comboMeans, enumerateGrid, meanScore, hr]
      rw [hcm]
      norm_num [firstMax])

end SkorchGS
